import Mathlib

/-!
Shallow embedding of the rawlink marketplace backend (Django project):
the order settlement transaction (`api/serializers.py`, `OrderSerializer.create`),
the wallet credit operation (`api/views.py`, `WalletViewSet.add_credit`),
the order lifecycle update (`api/views.py`, `OrderViewSet.update_status`),
the WebSocket JWT authentication middleware (`api/middleware.py`) and the chat
consumer (`api/consumers.py`).

Monetary amounts and quantities are Django `DecimalField`s (exact decimal
arithmetic); they are modelled as rationals (`Rat`).  Database rows are
modelled as lists of records; a row update is a `List.map` over the rows
matching the updated primary key.  Each operation that runs inside
`transaction.atomic()` is modelled as a function returning the pair
(resulting state, result); every branch that raises returns the unchanged
input state, which is exactly the visible semantics of an aborted atomic
block (all raises in the source happen before any write, and any raise rolls
the whole block back).
-/

deriving instance DecidableEq for Except

namespace Rawlink

/-- A `Listing` row (api/models.py).  Only the fields read or written by the
settlement and lifecycle code are kept: `id`, `vendor` (foreign key, kept as
the vendor's user id), `title`, `quantity`, `unit`, `price_per_unit`,
`status`. -/
structure Listing where
  id : Nat
  vendorId : Nat
  title : String
  quantity : Rat
  unit : String
  pricePerUnit : Rat
  status : String
deriving DecidableEq

/-- A `Wallet` row (api/models.py): one-to-one with a user, holds `balance`
(default 0.00). -/
structure Wallet where
  userId : Nat
  balance : Rat
deriving DecidableEq

/-- A `Transaction` row (api/models.py): belongs to a wallet (kept as the
owning user's id, since wallets are one-to-one with users), signed `amount`,
and a `type` string (sale | purchase | withdrawal | credit). -/
structure Txn where
  walletUserId : Nat
  amount : Rat
  kind : String
deriving DecidableEq

/-- An `Order` row (api/models.py): buyer, nullable listing reference,
denormalized `listing_title`, vendor, `quantity_bought`, `total_price`,
`status`. -/
structure Order where
  id : Nat
  buyerId : Nat
  listingId : Option Nat
  listingTitle : String
  vendorId : Nat
  quantityBought : Rat
  totalPrice : Rat
  status : String
deriving DecidableEq

/-- The persistent marketplace state: the listing, wallet, transaction and
order tables, plus the next auto-assigned order primary key. -/
structure MarketState where
  listings : List Listing
  wallets : List Wallet
  transactions : List Txn
  orders : List Order
  nextOrderId : Nat
deriving DecidableEq

/-- The distinct failure modes of `OrderSerializer.create`
(api/serializers.py).  Each constructor carries the data interpolated into
the source's error message. -/
inductive OrderError where
  /-- Message "This listing is not available or does not exist." -/
  | listingUnavailable
  /-- Message "You cannot buy your own listing." -/
  | selfPurchaseForbidden
  /-- Message "Only \x7bavailable\x7d \x7bunit\x7d available." -/
  | insufficientInventory (available : Rat) (unit : String)
  /-- Messages "Buyer wallet not found." / "Vendor wallet not found." -/
  | walletNotFound (which : String)
  /-- Message "Insufficient funds. Balance: \x7bbalance\x7d, Required: \x7brequired\x7d" -/
  | insufficientFunds (balance required : Rat)
deriving DecidableEq

/-- Embeds `Listing.objects.select_for_update().get(id=listing_id, status="available")`:
the (unique, by primary key) listing row with the given id and status
`available`, if any. -/
def findAvailableListing (s : MarketState) (listingId : Nat) : Option Listing :=
  s.listings.find? fun l => l.id == listingId && l.status == "available"

/-- Embeds `Wallet.objects.select_for_update().get(user=u)`: the wallet row of the
given user, if any. -/
def findWallet (s : MarketState) (userId : Nat) : Option Wallet :=
  s.wallets.find? fun w => w.userId == userId

/-- Embeds `wallet.balance = v; wallet.save()`: overwrite the balance of the given
user's wallet row. -/
def setWalletBalance (s : MarketState) (userId : Nat) (v : Rat) : MarketState :=
  { s with wallets := s.wallets.map fun w =>
      if w.userId = userId then { w with balance := v } else w }

/-- Embeds `Transaction.objects.create(wallet=w, amount=a, type=k)`: append a
transaction record. -/
def appendTxn (s : MarketState) (userId : Nat) (amount : Rat) (kind : String) :
    MarketState :=
  { s with transactions := s.transactions ++ [⟨userId, amount, kind⟩] }

/-- The tail of `OrderSerializer.create` shared by the wallet and non-wallet
payment paths: create the Order row (status `confirmed`, frozen
`total_price`, denormalized `listing_title`), decrement the listing's
quantity by the bought quantity and set its status to `completed` when the
result is ≤ 0. -/
def settleOrder (s : MarketState) (L : Listing) (buyerId : Nat) (q T : Rat) :
    MarketState × Order :=
  let o : Order :=
    { id := s.nextOrderId, buyerId := buyerId, listingId := some L.id,
      listingTitle := L.title, vendorId := L.vendorId, quantityBought := q,
      totalPrice := T, status := "confirmed" }
  let newQty := L.quantity - q
  let newStatus := if newQty ≤ 0 then "completed" else L.status
  ({ s with
      orders := s.orders ++ [o],
      nextOrderId := s.nextOrderId + 1,
      listings := s.listings.map fun x =>
        if x.id = L.id then { x with quantity := newQty, status := newStatus }
        else x },
   o)

/-- Embeds `OrderSerializer.create` (api/serializers.py): the atomic settlement
transaction.  Validations run in source order; each failing validation
raises, aborting the atomic block, so those branches return the input state
unchanged.  On the wallet path the buyer is debited and the vendor credited
by `total_price = price_per_unit * quantity_bought`, a `purchase` and a
`sale` transaction are recorded, and on every success path the Order row is
created and the listing's inventory updated. -/
def placeOrder (s : MarketState) (buyerId listingId : Nat) (q : Rat)
    (paymentMethod : String) : MarketState × Except OrderError Order :=
  match findAvailableListing s listingId with
  | none => (s, .error .listingUnavailable)
  | some L =>
    if buyerId = L.vendorId then (s, .error .selfPurchaseForbidden)
    else if L.quantity < q then
      (s, .error (.insufficientInventory L.quantity L.unit))
    else
      let T := L.pricePerUnit * q
      if paymentMethod = "wallet" then
        match findWallet s buyerId with
        | none => (s, .error (.walletNotFound "buyer"))
        | some bw =>
          if bw.balance < T then (s, .error (.insufficientFunds bw.balance T))
          else
            match findWallet s L.vendorId with
            | none => (s, .error (.walletNotFound "vendor"))
            | some vw =>
              let s1 := setWalletBalance s buyerId (bw.balance - T)
              let s2 := setWalletBalance s1 L.vendorId (vw.balance + T)
              let s3 := appendTxn s2 buyerId (-T) "purchase"
              let s4 := appendTxn s3 L.vendorId T "sale"
              let p := settleOrder s4 L buyerId q T
              (p.1, .ok p.2)
      else
        let p := settleOrder s L buyerId q T
        (p.1, .ok p.2)

/-- The failure modes of `WalletViewSet.add_credit` (api/views.py). -/
inductive CreditError where
  /-- Message "Amount not provided." (also covers the non-numeric `Decimal` parse
  failure "Invalid amount.", which aborts before any state is read). -/
  | amountNotProvided
  /-- Message "Amount must be positive." -/
  | amountNotPositive
  /-- Raised when `request.user.wallet` is missing: the attribute access raises and the
  atomic block aborts. -/
  | walletMissing
deriving DecidableEq

/-- Embeds `WalletViewSet.add_credit` (api/views.py): reject a missing or
non-positive amount, otherwise atomically increment the caller's wallet
balance and append a `credit` transaction record. -/
def addCredit (s : MarketState) (userId : Nat) (amount : Option Rat) :
    MarketState × Except CreditError Wallet :=
  match amount with
  | none => (s, .error .amountNotProvided)
  | some a =>
    if a ≤ 0 then (s, .error .amountNotPositive)
    else
      match findWallet s userId with
      | none => (s, .error .walletMissing)
      | some w =>
        let s1 := setWalletBalance s userId (w.balance + a)
        let s2 := appendTxn s1 userId a "credit"
        (s2, .ok { w with balance := w.balance + a })

/-- The distinct responses of `OrderViewSet.update_status` (api/views.py). -/
inductive UpdateResult where
  /-- Outcome when `get_object` found no order with that primary key. -/
  | orderNotFound
  /-- Message "Status not provided." -/
  | statusNotProvided
  /-- Message "Order marked as shipped." -/
  | shippedOk
  /-- Message "Order marked as completed." -/
  | completedOk
  /-- Message "Invalid status update for vendor." -/
  | invalidForVendor
  /-- Message "Invalid status update for buyer." -/
  | invalidForBuyer
  /-- Message "Not authorized." (HTTP 403) -/
  | notAuthorized
deriving DecidableEq

/-- Overwrite the status of the order row with the given id
(`order.status = st; order.save()`). -/
def setOrderStatus (s : MarketState) (orderId : Nat) (st : String) :
    MarketState :=
  { s with orders := s.orders.map fun o =>
      if o.id = orderId then { o with status := st } else o }

/-- Embeds `OrderViewSet.update_status` (api/views.py): the vendor of the order may
move `confirmed` to `shipped`; the buyer of the order may move `shipped` to
`completed` (additionally completing the referenced listing when its
remaining quantity is ≤ 0); any other request fails without touching the
order, and a caller who is neither party receives "Not authorized.". -/
def updateStatus (s : MarketState) (userId orderId : Nat)
    (newStatus : Option String) : MarketState × UpdateResult :=
  match s.orders.find? fun o => o.id == orderId with
  | none => (s, .orderNotFound)
  | some o =>
    match newStatus with
    | none => (s, .statusNotProvided)
    | some ns =>
      if userId = o.vendorId then
        if ns = "shipped" ∧ o.status = "confirmed" then
          (setOrderStatus s orderId "shipped", .shippedOk)
        else (s, .invalidForVendor)
      else if userId = o.buyerId then
        if ns = "completed" ∧ o.status = "shipped" then
          let s1 := setOrderStatus s orderId "completed"
          let s2 :=
            match o.listingId with
            | none => s1
            | some lid =>
              match s1.listings.find? fun l => l.id == lid with
              | none => s1
              | some L =>
                if L.quantity ≤ 0 then
                  { s1 with listings := s1.listings.map fun l =>
                      if l.id = lid then { l with status := "completed" }
                      else l }
                else s1
          (s2, .completedOk)
        else (s, .invalidForBuyer)
      else (s, .notAuthorized)

/-- The wallet-mutating operations of the system: an `add_credit` call and a
`PlaceOrder` (order creation) call, each with its caller and arguments. -/
inductive Op where
  | addCredit (userId : Nat) (amount : Option Rat)
  | placeOrder (buyerId listingId : Nat) (q : Rat) (paymentMethod : String)
deriving DecidableEq

/-- Run one operation against the state; a failing operation leaves the
state unchanged (the aborted atomic block). -/
def applyOp (s : MarketState) : Op → MarketState
  | .addCredit u a => (addCredit s u a).1
  | .placeOrder b lid q pm => (placeOrder s b lid q pm).1

/-- Run a sequence of operations left to right. -/
def runOps (s : MarketState) (ops : List Op) : MarketState :=
  ops.foldl applyOp s

/-- Every wallet row has a non-negative balance. -/
def NonNegBalances (s : MarketState) : Prop :=
  ∀ w ∈ s.wallets, 0 ≤ w.balance

/-- Every listing row has a non-negative price per unit. -/
def NonNegPrices (s : MarketState) : Prop :=
  ∀ l ∈ s.listings, 0 ≤ l.pricePerUnit

/-- Sum of the amounts of the given user's wallet's transaction records. -/
def txnSum (ts : List Txn) (userId : Nat) : Rat :=
  ((ts.filter fun t => t.walletUserId == userId).map Txn.amount).sum

/-- The ledger invariant: every wallet's balance equals the sum of its
transaction amounts. -/
def LedgerInv (s : MarketState) : Prop :=
  ∀ w ∈ s.wallets, txnSum s.transactions w.userId = w.balance

/-- A user row as seen by the chat layer (api/consumers.py, api/middleware.py):
primary key and username. -/
structure ChatUser where
  id : Nat
  username : String
deriving DecidableEq

/-- A persisted `Message` row (api/models.py): sender, receiver, content.
(The server-assigned real-time timestamp is outside the embedding.) -/
structure ChatMessage where
  id : Nat
  senderId : Nat
  receiverId : Nat
  content : String
deriving DecidableEq

/-- The chat-side persistent state: the user registry, the message table and
the next auto-assigned message primary key. -/
structure ChatState where
  users : List ChatUser
  messages : List ChatMessage
  nextMessageId : Nat
deriving DecidableEq

/-- The decoded inbound JSON frame of `ChatConsumer.receive`:
`data.get("message")` and `data.get("receiver_id")`. -/
structure Frame where
  message : Option String
  receiverId : Option Nat
deriving DecidableEq

/-- The outbound `message_data` payload built by `ChatConsumer.receive`. -/
structure MessageData where
  id : Nat
  senderId : Nat
  senderUsername : String
  receiverId : Nat
  receiverUsername : String
  content : String
deriving DecidableEq

/-- The externally distinguishable outcomes of `ChatConsumer.receive`. -/
inductive RecvResult where
  /-- Empty or malformed frame: the handler returns early, persisting and
  broadcasting nothing. -/
  | ignoredInvalid
  /-- Outcome when `User.objects.get(id=receiver_id)` raised `DoesNotExist`; the
  exception is caught, persisting and broadcasting nothing. -/
  | receiverNotFound
  /-- The message was persisted and broadcast. -/
  | delivered (payload : MessageData)
deriving DecidableEq

/-- Embeds `ChatConsumer.receive` (api/consumers.py): validate the frame (Python
truthiness: a missing or empty `message`, or a missing or zero
`receiver_id`, is falsy and the frame is dropped), resolve the receiver,
persist the message, then broadcast the payload to the receiver's and the
sender's groups, in that order.  Returns (new state, list of
(group, payload) broadcasts, outcome). -/
def receive (st : ChatState) (senderId : Nat) (senderUsername : String)
    (f : Frame) : ChatState × List (String × MessageData) × RecvResult :=
  let messageOk := match f.message with
    | none => false
    | some c => c ≠ ""
  let receiverOk := match f.receiverId with
    | none => false
    | some r => r ≠ 0
  if messageOk = false ∨ receiverOk = false then (st, [], .ignoredInvalid)
  else
    match f.message, f.receiverId with
    | some c, some rid =>
      match st.users.find? fun u => u.id == rid with
      | none => (st, [], .receiverNotFound)
      | some receiver =>
        let m : ChatMessage :=
          { id := st.nextMessageId, senderId := senderId,
            receiverId := receiver.id, content := c }
        let payload : MessageData :=
          { id := m.id, senderId := senderId,
            senderUsername := senderUsername, receiverId := receiver.id,
            receiverUsername := receiver.username, content := c }
        ({ st with messages := st.messages ++ [m],
                   nextMessageId := st.nextMessageId + 1 },
         [("chat_" ++ toString receiver.id, payload),
          ("chat_" ++ toString senderId, payload)],
         .delivered payload)
    | _, _ => (st, [], .ignoredInvalid)

/-- The connection scope as read by `JwtAuthMiddleware.__call__`
(api/middleware.py): the parsed query string (as key/value pairs; Python's
`parse_qs` drops blank values, reflected in `qsToken`) and the raw headers. -/
structure WsScope where
  queryParams : List (String × String)
  headers : List (String × String)
deriving DecidableEq

/-- Embeds `parse_qs(query_string).get("token", [None])[0]`: the first non-blank
value of the `token` query parameter, if any (`parse_qs` omits parameters
with blank values). -/
def qsToken (scope : WsScope) : Option String :=
  ((scope.queryParams.filter fun p => p.1 == "token" && p.2 != "").head?).map
    Prod.snd

/-- The bearer-header fallback of `JwtAuthMiddleware.__call__`: the word
after `Bearer ` in the `authorization` header (possibly empty), when the
header carries the bearer scheme. -/
def bearerToken (scope : WsScope) : Option String :=
  let auth :=
    ((scope.headers.find? fun h => h.1 == "authorization").map
      Prod.snd).getD ""
  if auth.startsWith "Bearer " then some ((auth.splitOn " ").getD 1 "")
  else none

/-- The token-extraction preference of `JwtAuthMiddleware.__call__`: the
query-string token when present, otherwise the bearer header token. -/
def extractToken (scope : WsScope) : Option String :=
  match qsToken scope with
  | some t => some t
  | none => bearerToken scope

/-- Embeds `get_user_from_token` composed with the middleware gate: decode and
verify the token (the external `AccessToken` verifier, abstracted as the
`verify` argument returning the embedded subject id on success), then
resolve the subject against the user registry; any failure (no token, empty
token — Python falsy —, verification failure, unknown subject) yields no
authenticated user, and the middleware then raises `DenyConnection`. -/
def authenticate (verify : String → Option Nat) (users : List ChatUser)
    (scope : WsScope) : Option ChatUser :=
  match extractToken scope with
  | none => none
  | some t =>
    if t = "" then none
    else
      match verify t with
      | none => none
      | some uid =>
        match users.find? fun u => u.id == uid with
        | none => none
        | some u => some u

/-- The outcome of a WebSocket connection attempt. -/
inductive ConnectOutcome where
  | denied
  | accepted (userId : Nat)
deriving DecidableEq

/-- The full connection pipeline: `JwtAuthMiddleware.__call__` followed by
`ChatConsumer.connect`.  A denied connection subscribes to no group; an
accepted one is subscribed to exactly the user's private group
`chat_<user id>`. -/
def wsConnect (verify : String → Option Nat) (users : List ChatUser)
    (scope : WsScope) : ConnectOutcome × List String :=
  match authenticate verify users scope with
  | none => (.denied, [])
  | some u => (.accepted u.id, ["chat_" ++ toString u.id])

/-! ## Helper lemmas -/

/-- Updating one user's wallet balance does not change which rows exist:
membership in the updated table comes from membership in the original. -/
theorem mem_setWalletBalance {s : MarketState} {u : Nat} {v : Rat} {w : Wallet}
    (h : w ∈ (setWalletBalance s u v).wallets) :
    ∃ w0 ∈ s.wallets, w = (if w0.userId = u then { w0 with balance := v } else w0) := by
  simp only [setWalletBalance, List.mem_map] at h
  obtain ⟨w0, hw0, rfl⟩ := h
  exact ⟨w0, hw0, rfl⟩

/-! ## C2: failed settlements mutate nothing -/

/-- C2.  For every `PlaceOrder` call that fails (any precondition violated,
whatever the payment method), the resulting state is exactly the input
state: wallet balances, the transaction log, the order table and the listing
table are all untouched. -/
theorem placeOrder_error_no_mutation (s : MarketState) (b lid : Nat) (q : Rat)
    (pm : String) (e : OrderError) :
    (placeOrder s b lid q pm).2 = .error e →
    (placeOrder s b lid q pm).1 = s := by
  unfold placeOrder
  dsimp only
  repeat' split
  all_goals intro h
  all_goals first | rfl | simp at h

/-- Witness for C2: Scenario B — a buyer with balance 10 attempting a
purchase with total price 50 fails with `InsufficientFunds`, and the state
is returned unchanged. -/
theorem placeOrder_error_no_mutation_witness :
    (placeOrder
        { listings := [⟨1, 2, "scrap", 10, "kg", 5, "available"⟩],
          wallets := [⟨1, 10⟩, ⟨2, 0⟩], transactions := [], orders := [],
          nextOrderId := 1 } 1 1 10 "wallet").2 =
      .error (.insufficientFunds 10 50) ∧
    (placeOrder
        { listings := [⟨1, 2, "scrap", 10, "kg", 5, "available"⟩],
          wallets := [⟨1, 10⟩, ⟨2, 0⟩], transactions := [], orders := [],
          nextOrderId := 1 } 1 1 10 "wallet").1 =
      { listings := [⟨1, 2, "scrap", 10, "kg", 5, "available"⟩],
        wallets := [⟨1, 10⟩, ⟨2, 0⟩], transactions := [], orders := [],
        nextOrderId := 1 } :=
  ⟨by with_unfolding_all decide, placeOrder_error_no_mutation _ 1 1 10 "wallet"
      (.insufficientFunds 10 50) (by with_unfolding_all decide)⟩

/-- A wallet-balance update never changes a row's owner. -/
theorem userId_ite (w : Wallet) (u : Nat) (v : Rat) :
    ((if w.userId = u then { w with balance := v } else w) : Wallet).userId
      = w.userId := by
  split <;> rfl

/-- After debiting user `bId` to `β1` and crediting user `vId` to `β2`
(two distinct users), every row of `bId` holds `β1` and every row of `vId`
holds `β2`. -/
theorem doubleUpdate_balance (s : MarketState) (bId vId : Nat) (β1 β2 : Rat)
    (hne : bId ≠ vId) :
    ∀ w ∈ (setWalletBalance (setWalletBalance s bId β1) vId β2).wallets,
      (w.userId = bId → w.balance = β1) ∧ (w.userId = vId → w.balance = β2) := by
  intro w hw
  simp only [setWalletBalance, List.mem_map] at hw
  obtain ⟨w1, ⟨w0, hw0, rfl⟩, rfl⟩ := hw
  generalize hA : (if w0.userId = bId then ({ w0 with balance := β1 } : Wallet)
      else w0) = a
  have hab : a.userId = bId → a.balance = β1 := by
    intro hb
    by_cases h0 : w0.userId = bId
    · rw [if_pos h0] at hA
      rw [← hA]
    · rw [if_neg h0] at hA
      rw [← hA] at hb
      exact absurd hb h0
  by_cases h1 : a.userId = vId
  · rw [if_pos h1]
    refine ⟨fun hb => ?_, fun _ => rfl⟩
    have hb' : a.userId = bId := hb
    exact absurd (hb'.symm.trans h1) hne
  · rw [if_neg h1]
    exact ⟨hab, fun hv => absurd hv h1⟩

/-- The two wallet updates keep every row in the table: every original
owner still has a row afterwards. -/
theorem doubleUpdate_exists (s : MarketState) (bId vId : Nat) (β1 β2 : Rat) :
    ∀ w0 ∈ s.wallets,
      ∃ w ∈ (setWalletBalance (setWalletBalance s bId β1) vId β2).wallets,
        w.userId = w0.userId := by
  intro w0 h0
  simp only [setWalletBalance, List.mem_map]
  refine ⟨_, ⟨_, ⟨w0, h0, rfl⟩, rfl⟩, ?_⟩
  rw [userId_ite, userId_ite]

/-! ## C1: effects of a successful wallet settlement -/

/-- C1.  Every successful wallet-payment settlement has all success effects
together: with `T = price_per_unit * quantity_bought`, the buyer's wallet
row ends at `balance - T` and the vendor's at `balance + T`; a `purchase`
record of amount `-T` for the buyer and a `sale` record of amount `T` for
the vendor are appended to the transaction log; the order is appended with
status `confirmed`, total price `T` and the listing's title; and the listing
row ends with its quantity decremented by the bought quantity, its status
being `completed` iff that new quantity is ≤ 0. -/
theorem placeOrder_wallet_success_effects
    (s s' : MarketState) (b lid : Nat) (q : Rat) (o : Order)
    (h : placeOrder s b lid q "wallet" = (s', .ok o)) :
    ∃ L bw vw, findAvailableListing s lid = some L ∧
      findWallet s b = some bw ∧ findWallet s L.vendorId = some vw ∧
      b ≠ L.vendorId ∧
      (∀ w ∈ s'.wallets, w.userId = b →
        w.balance = bw.balance - L.pricePerUnit * q) ∧
      (∃ w ∈ s'.wallets, w.userId = b) ∧
      (∀ w ∈ s'.wallets, w.userId = L.vendorId →
        w.balance = vw.balance + L.pricePerUnit * q) ∧
      (∃ w ∈ s'.wallets, w.userId = L.vendorId) ∧
      s'.transactions = s.transactions ++
        [⟨b, -(L.pricePerUnit * q), "purchase"⟩,
         ⟨L.vendorId, L.pricePerUnit * q, "sale"⟩] ∧
      s'.orders = s.orders ++ [o] ∧
      o.status = "confirmed" ∧ o.totalPrice = L.pricePerUnit * q ∧
      o.listingTitle = L.title ∧ o.quantityBought = q ∧
      o.buyerId = b ∧ o.vendorId = L.vendorId ∧
      (∀ l ∈ s'.listings, l.id = lid →
        l.quantity = L.quantity - q ∧
        (l.status = "completed" ↔ L.quantity - q ≤ 0)) ∧
      (∃ l ∈ s'.listings, l.id = lid) := by
  unfold placeOrder at h
  dsimp only at h
  split at h
  · simp at h
  rename_i L hL
  split at h
  · simp at h
  rename_i hnv
  split at h
  · simp at h
  rename_i hnq
  split at h
  case isFalse hpm => exact absurd rfl hpm
  split at h
  · simp at h
  rename_i bw hbw
  split at h
  · simp at h
  rename_i hbal
  split at h
  · simp at h
  rename_i vw hvw
  rw [Prod.mk.injEq] at h
  obtain ⟨hs', ho⟩ := h
  rw [Except.ok.injEq] at ho
  have hL2 := hL
  have hbw2 := hbw
  have hvw2 := hvw
  unfold findAvailableListing at hL2
  unfold findWallet at hbw2 hvw2
  have hLp := List.find?_some hL2
  simp only [Bool.and_eq_true, beq_iff_eq] at hLp
  obtain ⟨hLid, hLst⟩ := hLp
  have hbwp : bw.userId = b := by
    have := List.find?_some hbw2
    rwa [beq_iff_eq] at this
  have hvwp : vw.userId = L.vendorId := by
    have := List.find?_some hvw2
    rwa [beq_iff_eq] at this
  have hbwm : bw ∈ s.wallets := List.mem_of_find?_eq_some hbw2
  have hvwm : vw ∈ s.wallets := List.mem_of_find?_eq_some hvw2
  subst hs' ho
  refine ⟨L, bw, vw, hL, hbw, hvw, hnv, ?_, ?_, ?_, ?_, ?_, ?_, rfl, rfl, rfl,
    rfl, rfl, rfl, ?_, ?_⟩
  · intro w hw hwb
    exact (doubleUpdate_balance s b L.vendorId
      (bw.balance - L.pricePerUnit * q) (vw.balance + L.pricePerUnit * q)
      hnv w hw).1 hwb
  · obtain ⟨w, hwm, hwid⟩ := doubleUpdate_exists s b L.vendorId
      (bw.balance - L.pricePerUnit * q) (vw.balance + L.pricePerUnit * q)
      bw hbwm
    exact ⟨w, hwm, hwid.trans hbwp⟩
  · intro w hw hwv
    exact (doubleUpdate_balance s b L.vendorId
      (bw.balance - L.pricePerUnit * q) (vw.balance + L.pricePerUnit * q)
      hnv w hw).2 hwv
  · obtain ⟨w, hwm, hwid⟩ := doubleUpdate_exists s b L.vendorId
      (bw.balance - L.pricePerUnit * q) (vw.balance + L.pricePerUnit * q)
      vw hvwm
    exact ⟨w, hwm, hwid.trans hvwp⟩
  · simp [settleOrder, appendTxn, setWalletBalance]
  · simp [settleOrder, appendTxn, setWalletBalance]
  · intro l hl hlid
    simp only [settleOrder, appendTxn, setWalletBalance, List.mem_map] at hl
    obtain ⟨l0, hl0, rfl⟩ := hl
    by_cases h0 : l0.id = L.id
    · rw [if_pos h0]
      refine ⟨rfl, ?_, fun hle => if_pos hle⟩
      intro hc
      by_contra hgt
      rw [if_neg hgt, hLst] at hc
      exact absurd hc (by decide)
    · rw [if_neg h0] at hlid
      exact absurd (hlid.trans hLid.symm) h0
  · simp only [settleOrder, appendTxn, setWalletBalance, List.mem_map]
    have hLm : L ∈ s.listings := List.mem_of_find?_eq_some hL2
    refine ⟨_, ⟨L, hLm, rfl⟩, ?_⟩
    rw [if_pos rfl]
    exact hLid

/-- Scenario A of the specification: one listing of 10 kg at 5 per kg by
vendor 2, buyer 1 with balance 100, vendor 2 with balance 0. -/
def demoState : MarketState :=
  { listings := [⟨1, 2, "scrap", 10, "kg", 5, "available"⟩],
    wallets := [⟨1, 100⟩, ⟨2, 0⟩], transactions := [], orders := [],
    nextOrderId := 1 }

/-- The state after buyer 1 buys the full 10 kg of listing 1 by wallet. -/
def demoStateAfter : MarketState :=
  { listings := [⟨1, 2, "scrap", 0, "kg", 5, "completed"⟩],
    wallets := [⟨1, 50⟩, ⟨2, 50⟩],
    transactions := [⟨1, -50, "purchase"⟩, ⟨2, 50, "sale"⟩],
    orders := [⟨1, 1, some 1, "scrap", 2, 10, 50, "confirmed"⟩],
    nextOrderId := 2 }

/-- The order created by that settlement. -/
def demoOrder : Order := ⟨1, 1, some 1, "scrap", 2, 10, 50, "confirmed"⟩

/-- Witness for C1: the Scenario-A settlement succeeds and all the success
effects hold for it. -/
theorem placeOrder_wallet_success_effects_witness :
    placeOrder demoState 1 1 10 "wallet" = (demoStateAfter, .ok demoOrder) ∧
    (∃ L bw vw, findAvailableListing demoState 1 = some L ∧
      findWallet demoState 1 = some bw ∧
      findWallet demoState L.vendorId = some vw ∧
      1 ≠ L.vendorId ∧
      (∀ w ∈ demoStateAfter.wallets, w.userId = 1 →
        w.balance = bw.balance - L.pricePerUnit * 10) ∧
      (∃ w ∈ demoStateAfter.wallets, w.userId = 1) ∧
      (∀ w ∈ demoStateAfter.wallets, w.userId = L.vendorId →
        w.balance = vw.balance + L.pricePerUnit * 10) ∧
      (∃ w ∈ demoStateAfter.wallets, w.userId = L.vendorId) ∧
      demoStateAfter.transactions = demoState.transactions ++
        [⟨1, -(L.pricePerUnit * 10), "purchase"⟩,
         ⟨L.vendorId, L.pricePerUnit * 10, "sale"⟩] ∧
      demoStateAfter.orders = demoState.orders ++ [demoOrder] ∧
      demoOrder.status = "confirmed" ∧
      demoOrder.totalPrice = L.pricePerUnit * 10 ∧
      demoOrder.listingTitle = L.title ∧ demoOrder.quantityBought = 10 ∧
      demoOrder.buyerId = 1 ∧ demoOrder.vendorId = L.vendorId ∧
      (∀ l ∈ demoStateAfter.listings, l.id = 1 →
        l.quantity = L.quantity - 10 ∧
        (l.status = "completed" ↔ L.quantity - 10 ≤ 0)) ∧
      (∃ l ∈ demoStateAfter.listings, l.id = 1)) :=
  ⟨by with_unfolding_all decide,
   placeOrder_wallet_success_effects demoState demoStateAfter 1 1 10 demoOrder
     (by with_unfolding_all decide)⟩

/-! ## C3: validation order and error classification -/

/-- C3.  `PlaceOrder` validates its preconditions in source order and
raises the distinct error of the first violated one: `ListingUnavailable`
iff no listing with the given id is `available`; then
`SelfPurchaseForbidden` iff the buyer is the listing's vendor; then
`InsufficientInventory` (carrying the available amount and unit) iff the
requested quantity exceeds the stock; then, on the wallet path only,
`WalletNotFound` for a missing buyer wallet, `InsufficientFunds` (carrying
balance and required amount) iff the buyer's balance is below the total
price, and `WalletNotFound` for a missing vendor wallet; and the call
succeeds iff none of these conditions holds. -/
theorem placeOrder_validation_order (s : MarketState) (b lid : Nat) (q : Rat)
    (pm : String) :
    ((placeOrder s b lid q pm).2 = .error .listingUnavailable ↔
      findAvailableListing s lid = none) ∧
    (∀ L, findAvailableListing s lid = some L →
      ((placeOrder s b lid q pm).2 = .error .selfPurchaseForbidden ↔
        b = L.vendorId)) ∧
    (∀ L, findAvailableListing s lid = some L → b ≠ L.vendorId →
      ((placeOrder s b lid q pm).2 =
          .error (.insufficientInventory L.quantity L.unit) ↔
        L.quantity < q)) ∧
    (∀ L, findAvailableListing s lid = some L → b ≠ L.vendorId →
      q ≤ L.quantity → pm = "wallet" →
      ((placeOrder s b lid q pm).2 = .error (.walletNotFound "buyer") ↔
        findWallet s b = none)) ∧
    (∀ L bw, findAvailableListing s lid = some L → b ≠ L.vendorId →
      q ≤ L.quantity → pm = "wallet" → findWallet s b = some bw →
      ((placeOrder s b lid q pm).2 =
          .error (.insufficientFunds bw.balance (L.pricePerUnit * q)) ↔
        bw.balance < L.pricePerUnit * q)) ∧
    (∀ L bw, findAvailableListing s lid = some L → b ≠ L.vendorId →
      q ≤ L.quantity → pm = "wallet" → findWallet s b = some bw →
      L.pricePerUnit * q ≤ bw.balance →
      ((placeOrder s b lid q pm).2 = .error (.walletNotFound "vendor") ↔
        findWallet s L.vendorId = none)) ∧
    ((∃ o, (placeOrder s b lid q pm).2 = .ok o) ↔
      (∃ L, findAvailableListing s lid = some L ∧ b ≠ L.vendorId ∧
        q ≤ L.quantity ∧
        (pm = "wallet" →
          (∃ bw, findWallet s b = some bw ∧
            L.pricePerUnit * q ≤ bw.balance) ∧
          (∃ vw, findWallet s L.vendorId = some vw)))) := by
  refine ⟨?_, ?_, ?_, ?_, ?_, ?_, ?_⟩
  · cases hF : findAvailableListing s lid with
    | none => simp [placeOrder, hF]
    | some L =>
      refine iff_of_false ?_ (by simp)
      intro h
      simp only [placeOrder, hF] at h
      try dsimp only at h
      repeat' split at h <;> try simp_all
  · intro L hF
    by_cases hbv : b = L.vendorId
    · simp [placeOrder, hF, hbv]
    · refine iff_of_false ?_ hbv
      intro h
      simp only [placeOrder, hF, if_neg hbv] at h
      try dsimp only at h
      repeat' split at h <;> try simp_all
  · intro L hF hbv
    by_cases hq : L.quantity < q
    · simp [placeOrder, hF, if_neg hbv, if_pos hq, hq]
    · refine iff_of_false ?_ hq
      intro h
      simp only [placeOrder, hF, if_neg hbv, if_neg hq] at h
      try dsimp only at h
      repeat' split at h <;> try simp_all
  · intro L hF hbv hq hpm
    cases hBW : findWallet s b with
    | none =>
      simp [placeOrder, hF, hBW, if_neg hbv, if_neg (not_lt.mpr hq),
        if_pos hpm]
    | some bw =>
      refine iff_of_false ?_ (by simp)
      intro h
      simp only [placeOrder, hF, hBW, if_neg hbv, if_neg (not_lt.mpr hq),
        if_pos hpm] at h
      try dsimp only at h
      repeat' split at h <;> try simp_all
  · intro L bw hF hbv hq hpm hBW
    by_cases hbal : bw.balance < L.pricePerUnit * q
    · simp [placeOrder, hF, hBW, if_neg hbv, if_neg (not_lt.mpr hq),
        if_pos hpm, if_pos hbal, hbal]
    · refine iff_of_false ?_ hbal
      intro h
      simp only [placeOrder, hF, hBW, if_neg hbv, if_neg (not_lt.mpr hq),
        if_pos hpm, if_neg hbal] at h
      try dsimp only at h
      repeat' split at h <;> try simp_all
  · intro L bw hF hbv hq hpm hBW hbal
    cases hVW : findWallet s L.vendorId with
    | none =>
      simp [placeOrder, hF, hBW, hVW, if_neg hbv, if_neg (not_lt.mpr hq),
        if_pos hpm, if_neg (not_lt.mpr hbal)]
    | some vw =>
      simp [placeOrder, hF, hBW, hVW, if_neg hbv, if_neg (not_lt.mpr hq),
        if_pos hpm, if_neg (not_lt.mpr hbal)]
  · constructor
    · rintro ⟨o, ho⟩
      unfold placeOrder at ho
      try dsimp only at ho
      split at ho
      · simp at ho
      rename_i L hF
      split at ho
      · simp at ho
      rename_i hbv
      split at ho
      · simp at ho
      rename_i hq
      refine ⟨L, hF, hbv, not_lt.mp hq, ?_⟩
      intro hpm
      rw [if_pos hpm] at ho
      split at ho
      · simp at ho
      rename_i bw hBW
      split at ho
      · simp at ho
      rename_i hbal
      split at ho
      · simp at ho
      rename_i vw hVW
      exact ⟨⟨bw, hBW, not_lt.mp hbal⟩, ⟨vw, hVW⟩⟩
    · rintro ⟨L, hF, hbv, hq, hw⟩
      by_cases hpm : pm = "wallet"
      · obtain ⟨⟨bw, hBW, hbal⟩, ⟨vw, hVW⟩⟩ := hw hpm
        simp only [placeOrder, hF, hBW, hVW, if_neg hbv,
          if_neg (not_lt.mpr hq), if_pos hpm, if_neg (not_lt.mpr hbal)]
        exact ⟨_, rfl⟩
      · simp only [placeOrder, hF, if_neg hbv, if_neg (not_lt.mpr hq),
          if_neg hpm]
        exact ⟨_, rfl⟩

/-- Witness for C3: on the Scenario-A state, a vendor buying their own
listing gets `SelfPurchaseForbidden`, a missing listing id gets
`ListingUnavailable`, over-buying gets `InsufficientInventory` with the
available amount and unit, and the valid purchase succeeds. -/
theorem placeOrder_validation_order_witness :
    (placeOrder demoState 2 1 5 "wallet").2 =
        .error .selfPurchaseForbidden ∧
    (placeOrder demoState 1 7 5 "wallet").2 = .error .listingUnavailable ∧
    (placeOrder demoState 1 1 11 "wallet").2 =
        .error (.insufficientInventory 10 "kg") ∧
    (∃ o, (placeOrder demoState 1 1 10 "wallet").2 = .ok o) :=
  ⟨((placeOrder_validation_order demoState 2 1 5 "wallet").2.1
      ⟨1, 2, "scrap", 10, "kg", 5, "available"⟩
      (by with_unfolding_all decide)).mpr rfl,
   (placeOrder_validation_order demoState 1 7 5 "wallet").1.mpr
      (by with_unfolding_all decide),
   ((placeOrder_validation_order demoState 1 1 11 "wallet").2.2.1
      ⟨1, 2, "scrap", 10, "kg", 5, "available"⟩
      (by with_unfolding_all decide)
      (by with_unfolding_all decide)).mpr (by with_unfolding_all decide),
   ((placeOrder_validation_order demoState 1 1 10 "wallet").2.2.2.2.2.2).mpr
      ⟨⟨1, 2, "scrap", 10, "kg", 5, "available"⟩,
        by with_unfolding_all decide, by with_unfolding_all decide,
        by with_unfolding_all decide,
        fun _ => ⟨⟨⟨1, 100⟩, by with_unfolding_all decide,
            by with_unfolding_all decide⟩,
          ⟨⟨2, 0⟩, by with_unfolding_all decide⟩⟩⟩⟩

/-- The explicit result of a wallet settlement whose preconditions all
hold: the exact success pair produced by `placeOrder`. -/
theorem placeOrder_wallet_ok_eq (s : MarketState) (b lid : Nat) (q : Rat)
    (L : Listing) (bw vw : Wallet)
    (hF : findAvailableListing s lid = some L) (hbv : b ≠ L.vendorId)
    (hq : q ≤ L.quantity) (hBW : findWallet s b = some bw)
    (hbal : L.pricePerUnit * q ≤ bw.balance)
    (hVW : findWallet s L.vendorId = some vw) :
    placeOrder s b lid q "wallet" =
      ((settleOrder (appendTxn (appendTxn (setWalletBalance (setWalletBalance
          s b (bw.balance - L.pricePerUnit * q)) L.vendorId
          (vw.balance + L.pricePerUnit * q)) b (-(L.pricePerUnit * q))
          "purchase") L.vendorId (L.pricePerUnit * q) "sale") L b q
          (L.pricePerUnit * q)).1,
       .ok { id := s.nextOrderId, buyerId := b, listingId := some L.id,
             listingTitle := L.title, vendorId := L.vendorId,
             quantityBought := q, totalPrice := L.pricePerUnit * q,
             status := "confirmed" }) := by
  simp only [placeOrder, hF, hBW, hVW, if_neg hbv, if_neg (not_lt.mpr hq),
    if_neg (not_lt.mpr hbal)]
  simp [settleOrder, appendTxn, setWalletBalance]

/-! ## C4: no lower bound on the requested quantity -/

/-- C4.  `PlaceOrder` imposes no lower bound on the quantity: any quantity
≤ the listing's stock — zero and negative included — settles successfully
(given the other wallet preconditions), and for a negative quantity at a
positive price the total price is negative, so the buyer's balance rises,
the vendor's balance falls, and the listing's quantity increases. -/
theorem placeOrder_no_lower_quantity_bound
    (s : MarketState) (b lid : Nat) (q : Rat) (L : Listing) (bw vw : Wallet)
    (hF : findAvailableListing s lid = some L) (hbv : b ≠ L.vendorId)
    (hq : q ≤ L.quantity) (hBW : findWallet s b = some bw)
    (hbal : L.pricePerUnit * q ≤ bw.balance)
    (hVW : findWallet s L.vendorId = some vw) :
    (∃ s' o, placeOrder s b lid q "wallet" = (s', .ok o)) ∧
    (q < 0 → 0 < L.pricePerUnit →
      ∀ s' o, placeOrder s b lid q "wallet" = (s', .ok o) →
        o.totalPrice < 0 ∧
        (∀ w ∈ s'.wallets, w.userId = b → bw.balance < w.balance) ∧
        (∀ w ∈ s'.wallets, w.userId = L.vendorId → w.balance < vw.balance) ∧
        (∀ l ∈ s'.listings, l.id = lid → L.quantity < l.quantity)) := by
  have heq := placeOrder_wallet_ok_eq s b lid q L bw vw hF hbv hq hBW hbal hVW
  have hLid : L.id = lid := by
    have hL2 := hF
    unfold findAvailableListing at hL2
    have := List.find?_some hL2
    simp only [Bool.and_eq_true, beq_iff_eq] at this
    exact this.1
  constructor
  · exact ⟨_, _, heq⟩
  · intro hqneg hp s' o h
    rw [heq] at h
    rw [Prod.mk.injEq] at h
    obtain ⟨hs', ho⟩ := h
    rw [Except.ok.injEq] at ho
    subst hs' ho
    have hT : L.pricePerUnit * q < 0 := mul_neg_of_pos_of_neg hp hqneg
    refine ⟨hT, ?_, ?_, ?_⟩
    · intro w hw hwb
      have h2 := (doubleUpdate_balance s b L.vendorId
        (bw.balance - L.pricePerUnit * q) (vw.balance + L.pricePerUnit * q)
        hbv w hw).1 hwb
      rw [h2]
      linarith
    · intro w hw hwv
      have h2 := (doubleUpdate_balance s b L.vendorId
        (bw.balance - L.pricePerUnit * q) (vw.balance + L.pricePerUnit * q)
        hbv w hw).2 hwv
      rw [h2]
      linarith
    · intro l hl hlid
      simp only [settleOrder, appendTxn, setWalletBalance,
        List.mem_map] at hl
      obtain ⟨l0, hl0, rfl⟩ := hl
      by_cases h0 : l0.id = L.id
      · rw [if_pos h0]
        show L.quantity < L.quantity - q
        linarith
      · rw [if_neg h0] at hlid
        exact absurd (hlid.trans hLid.symm) h0

/-- Witness for C4: buyer 1 "buys" −10 kg of the Scenario-A listing; the
settlement succeeds, the buyer's balance rises from 100 to 150, the
vendor's falls from 0 to −50, and the listing's stock grows from 10 to
20. -/
theorem placeOrder_no_lower_quantity_bound_witness :
    ((∃ s' o, placeOrder demoState 1 1 (-10) "wallet" = (s', .ok o)) ∧
      ((-10 : Rat) < 0 →
        0 < (Listing.mk 1 2 "scrap" 10 "kg" 5 "available").pricePerUnit →
        ∀ s' o, placeOrder demoState 1 1 (-10) "wallet" = (s', .ok o) →
          o.totalPrice < 0 ∧
          (∀ w ∈ s'.wallets, w.userId = 1 →
            (Wallet.mk 1 100).balance < w.balance) ∧
          (∀ w ∈ s'.wallets,
            w.userId = (Listing.mk 1 2 "scrap" 10 "kg" 5 "available").vendorId →
            w.balance < (Wallet.mk 2 0).balance) ∧
          (∀ l ∈ s'.listings, l.id = 1 →
            (Listing.mk 1 2 "scrap" 10 "kg" 5 "available").quantity <
              l.quantity))) ∧
    (placeOrder demoState 1 1 (-10) "wallet").1.wallets =
      [⟨1, 150⟩, ⟨2, -50⟩] :=
  ⟨placeOrder_no_lower_quantity_bound demoState 1 1 (-10)
      ⟨1, 2, "scrap", 10, "kg", 5, "available"⟩ ⟨1, 100⟩ ⟨2, 0⟩
      (by with_unfolding_all decide) (by with_unfolding_all decide)
      (by with_unfolding_all decide) (by with_unfolding_all decide)
      (by with_unfolding_all decide) (by with_unfolding_all decide),
   by with_unfolding_all decide⟩

/-! ## C8: non-wallet payment skips the ledger but still settles -/

/-- C8.  A `PlaceOrder` with a payment method other than `wallet` that
passes the listing, self-purchase and inventory checks leaves both wallet
tables and the transaction log completely unchanged, while still creating
the confirmed order and updating the listing exactly as the wallet path
does. -/
theorem placeOrder_nonwallet_frame
    (s : MarketState) (b lid : Nat) (q : Rat) (pm : String) (L : Listing)
    (hpm : pm ≠ "wallet")
    (hF : findAvailableListing s lid = some L) (hbv : b ≠ L.vendorId)
    (hq : q ≤ L.quantity) :
    ∃ s' o, placeOrder s b lid q pm = (s', .ok o) ∧
      s'.wallets = s.wallets ∧
      s'.transactions = s.transactions ∧
      s'.orders = s.orders ++ [o] ∧
      o.status = "confirmed" ∧ o.totalPrice = L.pricePerUnit * q ∧
      o.listingTitle = L.title ∧ o.quantityBought = q ∧
      (∀ l ∈ s'.listings, l.id = lid →
        l.quantity = L.quantity - q ∧
        (l.status = "completed" ↔ L.quantity - q ≤ 0)) ∧
      (∃ l ∈ s'.listings, l.id = lid) := by
  have hL2 := hF
  unfold findAvailableListing at hL2
  have hLp := List.find?_some hL2
  simp only [Bool.and_eq_true, beq_iff_eq] at hLp
  obtain ⟨hLid, hLst⟩ := hLp
  have heq : placeOrder s b lid q pm =
      ((settleOrder s L b q (L.pricePerUnit * q)).1,
       .ok (settleOrder s L b q (L.pricePerUnit * q)).2) := by
    simp only [placeOrder, hF, if_neg hbv, if_neg (not_lt.mpr hq),
      if_neg hpm]
  refine ⟨_, _, heq, rfl, rfl, rfl, rfl, rfl, rfl, rfl, ?_, ?_⟩
  · intro l hl hlid
    simp only [settleOrder, List.mem_map] at hl
    obtain ⟨l0, hl0, rfl⟩ := hl
    by_cases h0 : l0.id = L.id
    · rw [if_pos h0]
      refine ⟨rfl, ?_, fun hle => if_pos hle⟩
      intro hc
      by_contra hgt
      rw [if_neg hgt, hLst] at hc
      exact absurd hc (by decide)
    · rw [if_neg h0] at hlid
      exact absurd (hlid.trans hLid.symm) h0
  · simp only [settleOrder, List.mem_map]
    have hLm : L ∈ s.listings := List.mem_of_find?_eq_some hL2
    refine ⟨_, ⟨L, hLm, rfl⟩, ?_⟩
    rw [if_pos rfl]
    exact hLid

/-- Witness for C8: buying 4 kg of the Scenario-A listing with payment
method `cash` succeeds, touches no wallet and no transaction, and leaves 6
kg on the still-available listing. -/
theorem placeOrder_nonwallet_frame_witness :
    (∃ s' o, placeOrder demoState 1 1 4 "cash" = (s', .ok o) ∧
      s'.wallets = demoState.wallets ∧
      s'.transactions = demoState.transactions ∧
      s'.orders = demoState.orders ++ [o] ∧
      o.status = "confirmed" ∧
      o.totalPrice =
        (Listing.mk 1 2 "scrap" 10 "kg" 5 "available").pricePerUnit * 4 ∧
      o.listingTitle = (Listing.mk 1 2 "scrap" 10 "kg" 5 "available").title ∧
      o.quantityBought = 4 ∧
      (∀ l ∈ s'.listings, l.id = 1 →
        l.quantity = (Listing.mk 1 2 "scrap" 10 "kg" 5 "available").quantity - 4 ∧
        (l.status = "completed" ↔
          (Listing.mk 1 2 "scrap" 10 "kg" 5 "available").quantity - 4 ≤ 0)) ∧
      (∃ l ∈ s'.listings, l.id = 1)) :=
  placeOrder_nonwallet_frame demoState 1 1 4 "cash"
    ⟨1, 2, "scrap", 10, "kg", 5, "available"⟩
    (by with_unfolding_all decide) (by with_unfolding_all decide)
    (by with_unfolding_all decide) (by with_unfolding_all decide)

/-! ## Invariant machinery for the operation sequences (C5, C6) -/

/-- Case analysis for a single wallet-balance update: a row either is the
updated user's row holding the new value, or is an untouched original
row. -/
theorem singleUpdate_cases (s : MarketState) (u : Nat) (v : Rat) :
    ∀ w ∈ (setWalletBalance s u v).wallets,
      (w.userId = u ∧ w.balance = v) ∨ (w.userId ≠ u ∧ w ∈ s.wallets) := by
  intro w hw
  simp only [setWalletBalance, List.mem_map] at hw
  obtain ⟨w0, hw0, rfl⟩ := hw
  by_cases h0 : w0.userId = u
  · rw [if_pos h0]
    exact Or.inl ⟨h0, rfl⟩
  · rw [if_neg h0]
    exact Or.inr ⟨h0, hw0⟩

/-- Case analysis for the settlement's debit-then-credit pair of updates
(distinct users): a row is the buyer's at the debited value, the vendor's
at the credited value, or an untouched original row. -/
theorem doubleUpdate_cases (s : MarketState) (bId vId : Nat) (β1 β2 : Rat) :
    ∀ w ∈ (setWalletBalance (setWalletBalance s bId β1) vId β2).wallets,
      (w.userId = bId ∧ w.balance = β1) ∨ (w.userId = vId ∧ w.balance = β2) ∨
      (w.userId ≠ bId ∧ w.userId ≠ vId ∧ w ∈ s.wallets) := by
  intro w hw
  obtain h2 | h2 := singleUpdate_cases (setWalletBalance s bId β1) vId β2 w hw
  · exact Or.inr (Or.inl h2)
  · obtain ⟨hnv, hw1⟩ := h2
    obtain h1 | h1 := singleUpdate_cases s bId β1 w hw1
    · exact Or.inl h1
    · exact Or.inr (Or.inr ⟨h1.1, hnv, h1.2⟩)

/-- Appending one transaction record adds its amount to the sum of exactly
its wallet's records. -/
theorem txnSum_append (ts : List Txn) (t : Txn) (u : Nat) :
    txnSum (ts ++ [t]) u =
      txnSum ts u + (if t.walletUserId = u then t.amount else 0) := by
  unfold txnSum
  rw [List.filter_append, List.map_append, List.sum_append]
  by_cases h : t.walletUserId = u
  · simp [h]
  · simp [h]

/-- The quantity argument carried by a `PlaceOrder` operation is
non-negative (trivially true for `AddCredit`). -/
def Op.quantityNonNeg : Op → Prop
  | .addCredit _ _ => True
  | .placeOrder _ _ q _ => 0 ≤ q

instance : DecidablePred Op.quantityNonNeg := fun op =>
  match op with
  | .addCredit _ _ => isTrue trivial
  | .placeOrder _ _ q _ => inferInstanceAs (Decidable (0 ≤ q))

/-- One operation with a non-negative quantity preserves both the
non-negativity of balances and the non-negativity of listing prices. -/
theorem nonneg_preserved (s : MarketState) (op : Op)
    (hB : NonNegBalances s) (hP : NonNegPrices s)
    (hop : Op.quantityNonNeg op) :
    NonNegBalances (applyOp s op) ∧ NonNegPrices (applyOp s op) := by
  cases op with
  | addCredit u a =>
    show NonNegBalances (addCredit s u a).1 ∧ NonNegPrices (addCredit s u a).1
    unfold addCredit
    split
    · exact ⟨hB, hP⟩
    rename_i x
    split
    · exact ⟨hB, hP⟩
    rename_i hx
    split
    · exact ⟨hB, hP⟩
    rename_i w hW
    constructor
    · intro w' hw'
      obtain h | h := singleUpdate_cases s u (w.balance + x) w' hw'
      · rw [h.2]
        have hwm : w ∈ s.wallets := List.mem_of_find?_eq_some hW
        have hx' : 0 < x := lt_of_not_le hx
        have := hB w hwm
        linarith
      · exact hB w' h.2
    · exact hP
  | placeOrder b lid qq pm =>
    show NonNegBalances (placeOrder s b lid qq pm).1 ∧
      NonNegPrices (placeOrder s b lid qq pm).1
    have hq : (0 : Rat) ≤ qq := hop
    unfold placeOrder
    try dsimp only
    split
    · exact ⟨hB, hP⟩
    rename_i L hL
    have hLm : L ∈ s.listings := by
      have hL2 := hL
      unfold findAvailableListing at hL2
      exact List.mem_of_find?_eq_some hL2
    have hTpos : 0 ≤ L.pricePerUnit * qq := mul_nonneg (hP L hLm) hq
    have hPrices : ∀ s0 : MarketState, NonNegPrices s0 →
        NonNegPrices (settleOrder s0 L b qq (L.pricePerUnit * qq)).1 := by
      intro s0 hP0 l hl
      simp only [settleOrder, List.mem_map] at hl
      obtain ⟨l0, hl0, rfl⟩ := hl
      by_cases h0 : l0.id = L.id
      · rw [if_pos h0]
        exact hP0 l0 hl0
      · rw [if_neg h0]
        exact hP0 l0 hl0
    split
    · exact ⟨hB, hP⟩
    rename_i hbv
    split
    · exact ⟨hB, hP⟩
    rename_i hnq
    split
    case isFalse hpm =>
      exact ⟨fun w hw => hB w hw, hPrices s hP⟩
    split
    · exact ⟨hB, hP⟩
    rename_i bw hbw
    split
    · exact ⟨hB, hP⟩
    rename_i hbal
    split
    · exact ⟨hB, hP⟩
    rename_i vw hvw
    have hbwm : bw ∈ s.wallets := by
      have h2 := hbw
      unfold findWallet at h2
      exact List.mem_of_find?_eq_some h2
    have hvwm : vw ∈ s.wallets := by
      have h2 := hvw
      unfold findWallet at h2
      exact List.mem_of_find?_eq_some h2
    constructor
    · intro w hw
      obtain h | h | h := doubleUpdate_cases s b L.vendorId
        (bw.balance - L.pricePerUnit * qq) (vw.balance + L.pricePerUnit * qq)
        w hw
      · rw [h.2]
        have h3 := not_lt.mp hbal
        linarith
      · rw [h.2]
        have := hB vw hvwm
        linarith
      · exact hB w h.2.2
    · exact hPrices _ (by exact hP)

/-- One operation preserves the ledger invariant: the sum of every
wallet's transaction amounts still equals its balance afterwards. -/
theorem ledgerInv_applyOp (s : MarketState) (op : Op) (hinv : LedgerInv s) :
    LedgerInv (applyOp s op) := by
  cases op with
  | addCredit u a =>
    show LedgerInv (addCredit s u a).1
    unfold addCredit
    split
    · exact hinv
    rename_i x
    split
    · exact hinv
    rename_i hx
    split
    · exact hinv
    rename_i w hW
    intro w' hw'
    have hwp : w.userId = u := by
      have h2 := hW
      unfold findWallet at h2
      have := List.find?_some h2
      rwa [beq_iff_eq] at this
    have hwm : w ∈ s.wallets := by
      have h2 := hW
      unfold findWallet at h2
      exact List.mem_of_find?_eq_some h2
    show txnSum (s.transactions ++ [⟨u, x, "credit"⟩]) w'.userId = w'.balance
    rw [txnSum_append]
    obtain h | h := singleUpdate_cases s u (w.balance + x) w' hw'
    · rw [h.1, h.2, if_pos rfl]
      have h3 := hinv w hwm
      rw [hwp] at h3
      rw [h3]
    · rw [if_neg (fun hh => h.1 hh.symm), add_zero]
      exact hinv w' h.2
  | placeOrder b lid qq pm =>
    show LedgerInv (placeOrder s b lid qq pm).1
    unfold placeOrder
    try dsimp only
    split
    · exact hinv
    rename_i L hL
    split
    · exact hinv
    rename_i hbv
    split
    · exact hinv
    rename_i hnq
    split
    case isFalse hpm => exact fun w hw => hinv w hw
    split
    · exact hinv
    rename_i bw hbw
    split
    · exact hinv
    rename_i hbal
    split
    · exact hinv
    rename_i vw hvw
    intro w hw
    have hbwp : bw.userId = b := by
      have h2 := hbw
      unfold findWallet at h2
      have := List.find?_some h2
      rwa [beq_iff_eq] at this
    have hvwp : vw.userId = L.vendorId := by
      have h2 := hvw
      unfold findWallet at h2
      have := List.find?_some h2
      rwa [beq_iff_eq] at this
    have hbwm : bw ∈ s.wallets := by
      have h2 := hbw
      unfold findWallet at h2
      exact List.mem_of_find?_eq_some h2
    have hvwm : vw ∈ s.wallets := by
      have h2 := hvw
      unfold findWallet at h2
      exact List.mem_of_find?_eq_some h2
    show txnSum ((s.transactions ++ [⟨b, -(L.pricePerUnit * qq), "purchase"⟩])
        ++ [⟨L.vendorId, L.pricePerUnit * qq, "sale"⟩]) w.userId = w.balance
    rw [txnSum_append, txnSum_append]
    obtain h | h | h := doubleUpdate_cases s b L.vendorId
      (bw.balance - L.pricePerUnit * qq) (vw.balance + L.pricePerUnit * qq)
      w hw
    · rw [h.1, h.2, if_pos rfl, if_neg (fun hh => hbv hh.symm)]
      have h3 := hinv bw hbwm
      rw [hbwp] at h3
      rw [h3]
      ring
    · rw [h.1, h.2, if_neg (fun hh => hbv hh), if_pos rfl]
      have h3 := hinv vw hvwm
      rw [hvwp] at h3
      rw [h3]
      ring
    · rw [if_neg (fun hh => h.1 hh.symm), if_neg (fun hh => h.2.1 hh.symm),
        add_zero, add_zero]
      exact hinv w h.2.2

/-- Decidability: `NonNegBalances` is checkable on a concrete state. -/
instance (s : MarketState) : Decidable (NonNegBalances s) :=
  inferInstanceAs (Decidable (∀ w ∈ s.wallets, 0 ≤ w.balance))

/-- Decidability: `NonNegPrices` is checkable on a concrete state. -/
instance (s : MarketState) : Decidable (NonNegPrices s) :=
  inferInstanceAs (Decidable (∀ l ∈ s.listings, 0 ≤ l.pricePerUnit))

/-- Decidability: `LedgerInv` is checkable on a concrete state. -/
instance (s : MarketState) : Decidable (LedgerInv s) :=
  inferInstanceAs
    (Decidable (∀ w ∈ s.wallets, txnSum s.transactions w.userId = w.balance))

/-! ## C5: non-negativity of balances (refuted as stated, amended) -/

/-- The C5 counterexample start state: both wallets at the initial balance
0, one available 10 kg listing at price 5 owned by vendor 2. -/
def zeroBalanceState : MarketState :=
  { listings := [⟨1, 2, "scrap", 10, "kg", 5, "available"⟩],
    wallets := [⟨1, 0⟩, ⟨2, 0⟩], transactions := [], orders := [],
    nextOrderId := 1 }

/-- Counterexample to C5 as stated: from wallets that all hold the initial
balance 0, the single operation `PlaceOrder(buyer 1, listing 1,
quantity −10, wallet)` is accepted and leaves vendor 2's wallet at −50:
a sequence of `AddCredit`/`PlaceOrder` operations can drive a balance
below 0. -/
theorem wallet_nonneg_counterexample :
    (∀ w ∈ zeroBalanceState.wallets, w.balance = 0) ∧
    ∃ w ∈ (runOps zeroBalanceState
        [.placeOrder 1 1 (-10) "wallet"]).wallets, w.balance < 0 :=
  ⟨by with_unfolding_all decide, by with_unfolding_all decide⟩

/-- C5 (amended).  Wallet balances can never drop below 0 *provided every
`PlaceOrder` requests a non-negative quantity and every listing price is
non-negative* (the code enforces neither bound): starting from any state
with non-negative balances — in particular all wallets at the initial 0 —
and non-negative listing prices, every sequence of `AddCredit` and
non-negative-quantity `PlaceOrder` operations keeps every wallet balance
≥ 0. -/
theorem wallet_balances_nonneg_amended (s : MarketState) (ops : List Op)
    (hB : NonNegBalances s) (hP : NonNegPrices s)
    (hops : ∀ op ∈ ops, Op.quantityNonNeg op) :
    NonNegBalances (runOps s ops) := by
  induction ops generalizing s with
  | nil => exact hB
  | cons op t ih =>
    have h1 := nonneg_preserved s op hB hP (hops op (List.mem_cons_self op t))
    exact ih (applyOp s op) h1.1 h1.2
      (fun o ho => hops o (List.mem_cons_of_mem _ ho))

/-- Witness for the amended C5: crediting buyer 1 with 100 and then buying
the full 10 kg leaves every balance non-negative. -/
theorem wallet_balances_nonneg_amended_witness :
    NonNegBalances zeroBalanceState ∧ NonNegPrices zeroBalanceState ∧
    (∀ op ∈ ([.addCredit 1 (some 100), .placeOrder 1 1 10 "wallet"] :
        List Op), Op.quantityNonNeg op) ∧
    NonNegBalances (runOps zeroBalanceState
      [.addCredit 1 (some 100), .placeOrder 1 1 10 "wallet"]) :=
  ⟨by with_unfolding_all decide, by with_unfolding_all decide,
   by with_unfolding_all decide,
   wallet_balances_nonneg_amended zeroBalanceState
     [.addCredit 1 (some 100), .placeOrder 1 1 10 "wallet"]
     (by with_unfolding_all decide) (by with_unfolding_all decide)
     (by with_unfolding_all decide)⟩

/-! ## C6: transaction sums equal balances -/

/-- C6.  For every wallet, after every committed operation the sum of the
amounts of that wallet's transaction records equals its balance: the
ledger invariant is preserved by every sequence of `AddCredit` and
`PlaceOrder` operations (wallet-paid or not), starting from any state
satisfying it — in particular from freshly created wallets with balance 0
and no records. -/
theorem wallet_ledger_invariant (s : MarketState) (ops : List Op)
    (hinv : LedgerInv s) : LedgerInv (runOps s ops) := by
  induction ops generalizing s with
  | nil => exact hinv
  | cons op t ih => exact ih _ (ledgerInv_applyOp s op hinv)

/-- Witness for C6: after a credit of 100 to buyer 1 and a wallet purchase
of the full 10 kg, both wallets' transaction sums equal their balances. -/
theorem wallet_ledger_invariant_witness :
    LedgerInv zeroBalanceState ∧
    LedgerInv (runOps zeroBalanceState
      [.addCredit 1 (some 100), .placeOrder 1 1 10 "wallet"]) :=
  ⟨by with_unfolding_all decide,
   wallet_ledger_invariant zeroBalanceState
     [.addCredit 1 (some 100), .placeOrder 1 1 10 "wallet"]
     (by with_unfolding_all decide)⟩

/-! ## C7: order status transitions -/

/-- C7.  The status-update operation permits exactly two transitions: the
order's vendor may request `shipped` on a `confirmed` order and the
order's buyer may request `completed` on a `shipped` order (the vendor
branch is checked first); any other request by a party fails with the
invalid-transition response, a caller who is neither buyer nor vendor gets
"Not authorized.", wallets and the transaction log are never touched, every
failing outcome leaves the whole state unchanged, and in particular a
buyer repeating "mark completed" on an already-completed order fails
cleanly with no state change. -/
theorem updateStatus_transitions (s : MarketState) (u orderId : Nat)
    (ns : String) (o : Order)
    (hO : s.orders.find? (fun x => x.id == orderId) = some o) :
    (u = o.vendorId →
      ((updateStatus s u orderId (some ns)).2 = .shippedOk ↔
        (ns = "shipped" ∧ o.status = "confirmed"))) ∧
    (u ≠ o.vendorId → u = o.buyerId →
      ((updateStatus s u orderId (some ns)).2 = .completedOk ↔
        (ns = "completed" ∧ o.status = "shipped"))) ∧
    (u ≠ o.vendorId → u ≠ o.buyerId →
      (updateStatus s u orderId (some ns)).2 = .notAuthorized) ∧
    ((updateStatus s u orderId (some ns)).1.wallets = s.wallets) ∧
    ((updateStatus s u orderId (some ns)).1.transactions = s.transactions) ∧
    ((updateStatus s u orderId (some ns)).2 ≠ .shippedOk →
      (updateStatus s u orderId (some ns)).2 ≠ .completedOk →
      (updateStatus s u orderId (some ns)).1 = s) ∧
    (o.status = "completed" → u ≠ o.vendorId → u = o.buyerId →
      (updateStatus s u orderId (some ns)).2 = .invalidForBuyer ∧
      (updateStatus s u orderId (some ns)).1 = s) ∧
    (u = o.vendorId → ¬(ns = "shipped" ∧ o.status = "confirmed") →
      (updateStatus s u orderId (some ns)).2 = .invalidForVendor) ∧
    (u ≠ o.vendorId → u = o.buyerId →
      ¬(ns = "completed" ∧ o.status = "shipped") →
      (updateStatus s u orderId (some ns)).2 = .invalidForBuyer) := by
  refine ⟨?_, ?_, ?_, ?_, ?_, ?_, ?_, ?_, ?_⟩
  · intro hv
    simp only [updateStatus, hO]
    rw [if_pos hv]
    by_cases hc : ns = "shipped" ∧ o.status = "confirmed"
    · rw [if_pos hc]
      exact iff_of_true rfl hc
    · rw [if_neg hc]
      exact iff_of_false (by simp) hc
  · intro hnv hb
    simp only [updateStatus, hO]
    rw [if_neg hnv, if_pos hb]
    by_cases hc : ns = "completed" ∧ o.status = "shipped"
    · rw [if_pos hc]
      exact iff_of_true rfl hc
    · rw [if_neg hc]
      exact iff_of_false (by simp) hc
  · intro hnv hnb
    simp only [updateStatus, hO]
    rw [if_neg hnv, if_neg hnb]
  · simp only [updateStatus, hO]
    repeat' split
    all_goals rfl
  · simp only [updateStatus, hO]
    repeat' split
    all_goals rfl
  · simp only [updateStatus, hO]
    repeat' split
    all_goals intro h1 h2
    all_goals first
      | rfl
      | exact absurd rfl h1
      | exact absurd rfl h2
  · intro hcomp hnv hb
    simp only [updateStatus, hO]
    rw [if_neg hnv, if_pos hb,
      if_neg (fun hc => absurd (hcomp.symm.trans hc.2) (by decide))]
    exact ⟨rfl, rfl⟩
  · intro hv hc
    simp only [updateStatus, hO]
    rw [if_pos hv, if_neg hc]
  · intro hnv hb hc
    simp only [updateStatus, hO]
    rw [if_neg hnv, if_pos hb, if_neg hc]

/-- A state holding a freshly confirmed order (the Scenario-A outcome). -/
def confirmedOrderState : MarketState :=
  { listings := [⟨1, 2, "scrap", 0, "kg", 5, "completed"⟩],
    wallets := [⟨1, 50⟩, ⟨2, 50⟩],
    transactions := [⟨1, -50, "purchase"⟩, ⟨2, 50, "sale"⟩],
    orders := [⟨1, 1, some 1, "scrap", 2, 10, 50, "confirmed"⟩],
    nextOrderId := 2 }

/-- The same state with the order already completed. -/
def completedOrderState : MarketState :=
  { listings := [⟨1, 2, "scrap", 0, "kg", 5, "completed"⟩],
    wallets := [⟨1, 50⟩, ⟨2, 50⟩],
    transactions := [⟨1, -50, "purchase"⟩, ⟨2, 50, "sale"⟩],
    orders := [⟨1, 1, some 1, "scrap", 2, 10, 50, "completed"⟩],
    nextOrderId := 2 }

/-- Witness for C7: the vendor ships the confirmed order; a third party is
rejected as not authorized; the buyer repeating "completed" on the
already-completed order fails cleanly with no state change; wallets are
untouched in all cases. -/
theorem updateStatus_transitions_witness :
    (updateStatus confirmedOrderState 2 1 (some "shipped")).2 =
        .shippedOk ∧
    (updateStatus confirmedOrderState 7 1 (some "shipped")).2 =
        .notAuthorized ∧
    (updateStatus completedOrderState 1 1 (some "completed")).2 =
        .invalidForBuyer ∧
    (updateStatus completedOrderState 1 1 (some "completed")).1 =
        completedOrderState ∧
    (updateStatus confirmedOrderState 2 1 (some "shipped")).1.wallets =
        confirmedOrderState.wallets :=
  ⟨((updateStatus_transitions confirmedOrderState 2 1 "shipped"
      ⟨1, 1, some 1, "scrap", 2, 10, 50, "confirmed"⟩
      (by with_unfolding_all decide)).1 rfl).mpr ⟨rfl, rfl⟩,
   (updateStatus_transitions confirmedOrderState 7 1 "shipped"
      ⟨1, 1, some 1, "scrap", 2, 10, 50, "confirmed"⟩
      (by with_unfolding_all decide)).2.2.1
      (by with_unfolding_all decide) (by with_unfolding_all decide),
   ((updateStatus_transitions completedOrderState 1 1 "completed"
      ⟨1, 1, some 1, "scrap", 2, 10, 50, "completed"⟩
      (by with_unfolding_all decide)).2.2.2.2.2.2.1
      rfl (by with_unfolding_all decide) rfl).1,
   ((updateStatus_transitions completedOrderState 1 1 "completed"
      ⟨1, 1, some 1, "scrap", 2, 10, 50, "completed"⟩
      (by with_unfolding_all decide)).2.2.2.2.2.2.1
      rfl (by with_unfolding_all decide) rfl).2,
   (updateStatus_transitions confirmedOrderState 2 1 "shipped"
      ⟨1, 1, some 1, "scrap", 2, 10, 50, "confirmed"⟩
      (by with_unfolding_all decide)).2.2.2.1⟩

/-! ## C9: connection authentication is a total gate -/

/-- C9.  Connection authentication is a total gate: the token is taken from
the `token` query parameter, with the `Authorization: Bearer` header used
only when no query token is present; and for every raw input, any failure
at any step — no token, empty token, verification failure (malformed or
expired), or subject not in the user registry — leaves the connection
denied with no group subscription; a connection is accepted only when a
token was extracted, verified, and its subject resolved, and then exactly
the user's own `chat_<id>` group is subscribed. -/
theorem ws_auth_total_gate (verify : String → Option Nat)
    (users : List ChatUser) (scope : WsScope) :
    (∀ t, qsToken scope = some t → extractToken scope = some t) ∧
    (qsToken scope = none → extractToken scope = bearerToken scope) ∧
    ((wsConnect verify users scope).1 = .denied →
      (wsConnect verify users scope).2 = []) ∧
    (∀ uid, (wsConnect verify users scope).1 = .accepted uid →
      ∃ t sub u, extractToken scope = some t ∧ t ≠ "" ∧
        verify t = some sub ∧
        users.find? (fun x => x.id == sub) = some u ∧ uid = u.id ∧
        (wsConnect verify users scope).2 = ["chat_" ++ toString u.id]) ∧
    (authenticate verify users scope = none →
      wsConnect verify users scope = (.denied, [])) := by
  refine ⟨?_, ?_, ?_, ?_, ?_⟩
  · intro t h
    simp only [extractToken, h]
  · intro h
    simp only [extractToken, h]
  · cases hA : authenticate verify users scope with
    | none => intro _; simp [wsConnect, hA]
    | some u => simp [wsConnect, hA]
  · intro uid h
    unfold wsConnect at h
    cases hA : authenticate verify users scope with
    | none => rw [hA] at h; simp at h
    | some u =>
      rw [hA] at h
      simp only at h
      have huid : uid = u.id := by
        cases h
        rfl
      unfold authenticate at hA
      cases hT : extractToken scope with
      | none => rw [hT] at hA; simp at hA
      | some t =>
        rw [hT] at hA
        simp only at hA
        by_cases ht0 : t = ""
        · rw [if_pos ht0] at hA
          simp at hA
        · rw [if_neg ht0] at hA
          cases hV : verify t with
          | none => rw [hV] at hA; simp at hA
          | some sub =>
            rw [hV] at hA
            simp only at hA
            cases hU : users.find? fun x => x.id == sub with
            | none => rw [hU] at hA; simp at hA
            | some u0 =>
              rw [hU] at hA
              simp only [Option.some.injEq] at hA
              subst hA
              refine ⟨t, sub, u0, rfl, ht0, hV, hU, huid, ?_⟩
              simp [wsConnect, authenticate, hT, if_neg ht0, hV, hU]
  · intro h
    simp [wsConnect, h]

/-- Witness for C9 (Scenario D): a token that fails verification (e.g.
expired) leads to a denied connection with no group subscription, for a
registry containing user 1. -/
theorem ws_auth_total_gate_witness :
    wsConnect (fun _ => none) [⟨1, "alice"⟩]
      ⟨[("token", "expired-token")], []⟩ = (.denied, []) :=
  (ws_auth_total_gate (fun _ => none) [⟨1, "alice"⟩]
      ⟨[("token", "expired-token")], []⟩).2.2.2.2
    (by with_unfolding_all decide)

/-! ## C10: message validation rejects without persisting or broadcasting -/

/-- C10.  `ChatConsumer.receive` rejects bad frames with a distinguished
failure outcome and in both failure modes persists nothing and broadcasts
nothing: a frame with a missing or empty `message`, or with no
`receiver_id`, is dropped as invalid; a well-formed frame naming a
receiver id absent from the user registry fails as receiver-not-found; in
both cases the state (message table included) is returned unchanged and
the broadcast list is empty. -/
theorem receive_rejects_invalid (st : ChatState) (senderId : Nat)
    (senderUsername : String) (f : Frame) :
    ((f.message = none ∨ f.message = some "" ∨ f.receiverId = none) →
      receive st senderId senderUsername f = (st, [], .ignoredInvalid)) ∧
    (∀ c rid, f.message = some c → c ≠ "" → f.receiverId = some rid →
      rid ≠ 0 → st.users.find? (fun x => x.id == rid) = none →
      receive st senderId senderUsername f = (st, [], .receiverNotFound)) := by
  constructor
  · intro h
    rcases h with h | h | h <;> simp [receive, h]
  · intro c rid hc hcne hr hrne hfind
    simp [receive, hc, hr, hcne, hrne, hfind]

/-- Witness for C10: in a registry holding only user 1, a frame with no
message text is dropped as invalid, and a frame to unknown receiver 9
fails as receiver-not-found; both leave the message table and broadcasts
empty. -/
theorem receive_rejects_invalid_witness :
    receive ⟨[⟨1, "alice"⟩], [], 1⟩ 1 "alice" ⟨none, some 2⟩ =
        (⟨[⟨1, "alice"⟩], [], 1⟩, [], .ignoredInvalid) ∧
    receive ⟨[⟨1, "alice"⟩], [], 1⟩ 1 "alice" ⟨some "hi", some 9⟩ =
        (⟨[⟨1, "alice"⟩], [], 1⟩, [], .receiverNotFound) :=
  ⟨(receive_rejects_invalid ⟨[⟨1, "alice"⟩], [], 1⟩ 1 "alice"
      ⟨none, some 2⟩).1 (Or.inl rfl),
   (receive_rejects_invalid ⟨[⟨1, "alice"⟩], [], 1⟩ 1 "alice"
      ⟨some "hi", some 9⟩).2 "hi" 9 rfl (by decide) rfl (by decide)
      (by with_unfolding_all decide)⟩

end Rawlink




